import Mathlib

/-!
Verification of the delivery engine of the email scheduler application
(src/main.py): the due-time queue, the dispatch worker loop, the SMTP
transport client, and the IMAP reconciliation poller, together with the
Task and Inbox rows they read and write.
-/

namespace EmailScheduler

/-- Status strings a Task row can hold in src/main.py: "pending" is the
column default (line 79), the worker writes "sending", "sent" and "failed"
(lines 200, 204, 207), and the poller writes "replied" (line 254). -/
inductive Status where
  | pending
  | sending
  | sent
  | failed
  | replied
deriving DecidableEq, Repr

/-- The Task ORM row (src/main.py lines 71 to 86), restricted to the fields
the delivery engine reads or writes.  The is_opened and opened_at columns are
never touched by the engine and are omitted. -/
structure Task where
  id : Nat
  account_id : Nat
  receiver : String
  subject : String
  body : String
  send_at : Nat
  status : Status
  attempts : Nat
  last_error : Option String
  message_id : Option String
  attachment_path : Option String
deriving DecidableEq, Repr

/-- Constructing a Task row as the compose route does (src/main.py line 887):
the column defaults give status "pending", attempts 0 and NULL last_error and
message_id. -/
def mkTask (id account_id : Nat) (receiver subject body : String) (send_at : Nat)
    (attachment_path : Option String) : Task :=
  { id := id, account_id := account_id, receiver := receiver, subject := subject,
    body := body, send_at := send_at, status := Status.pending, attempts := 0,
    last_error := none, message_id := none, attachment_path := attachment_path }

/-- Primary-key lookup, session.query(Task).get(task_id) at src/main.py
line 195.  The tasks table is modelled as a list of rows. -/
def getTask (tasks : List Task) (tid : Nat) : Option Task :=
  tasks.find? (fun t => t.id == tid)

/-- Mutating the row with primary key tid and committing the session. -/
def setTask (tasks : List Task) (tid : Nat) (t : Task) : List Task :=
  tasks.map (fun u => if u.id == tid then t else u)

theorem getTask_id {tasks : List Task} {tid : Nat} {t : Task}
    (h : getTask tasks tid = some t) : t.id = tid := by
  have := List.find?_some h
  simpa using this

theorem getTask_mem {tasks : List Task} {tid : Nat} {t : Task}
    (h : getTask tasks tid = some t) : t ∈ tasks :=
  List.mem_of_find?_eq_some h

theorem getTask_setTask_self {tasks : List Task} {tid : Nat} {t u : Task}
    (hex : getTask tasks tid = some u) (hid : t.id = tid) :
    getTask (setTask tasks tid t) tid = some t := by
  induction tasks with
  | nil => simp [getTask] at hex
  | cons v rest ih =>
    by_cases hv : v.id = tid
    · simp [getTask, setTask, List.find?_cons, hv, hid]
    · have hex2 : getTask rest tid = some u := by
        simpa [getTask, List.find?_cons, hv] using hex
      simpa [getTask, setTask, List.find?_cons, hv] using ih hex2

theorem getTask_setTask_ne {tasks : List Task} {tid tid2 : Nat} {t : Task}
    (hid : t.id = tid) (hne : tid2 ≠ tid) :
    getTask (setTask tasks tid t) tid2 = getTask tasks tid2 := by
  induction tasks with
  | nil => simp [getTask, setTask]
  | cons v rest ih =>
    by_cases hv : v.id = tid
    · have e1 : setTask (v :: rest) tid t = t :: setTask rest tid t := by
        simp [setTask, hv]
      have h2 : (t.id == tid2) = false := by
        simp [hid]
        omega
      have h3 : (v.id == tid2) = false := by
        simp [hv]
        omega
      unfold getTask
      rw [e1]
      simp only [List.find?_cons, h2, h3]
      exact ih
    · have e1 : setTask (v :: rest) tid t = v :: setTask rest tid t := by
        simp [setTask, hv]
      unfold getTask
      rw [e1]
      by_cases h3 : v.id = tid2
      · have h4 : (v.id == tid2) = true := by simp [h3]
        simp only [List.find?_cons, h4]
      · have h4 : (v.id == tid2) = false := by simp [h3]
        simp only [List.find?_cons, h4]
        exact ih

theorem mem_setTask {tasks : List Task} {tid : Nat} {t u : Task}
    (h : u ∈ setTask tasks tid t) : u = t ∨ u ∈ tasks := by
  unfold setTask at h
  obtain ⟨v, hv, hvu⟩ := List.mem_map.mp h
  by_cases hid : v.id = tid
  · left
    simp [hid] at hvu
    exact hvu.symm
  · right
    simp [hid] at hvu
    exact hvu ▸ hv

/-- The comparison heapq uses on TASK_HEAP entries, which are the Python
tuples (send_at.timestamp(), task_id) pushed at src/main.py line 152:
lexicographic order on (fire-time, task id). -/
def heapLeB (a b : Nat × Nat) : Bool :=
  decide (a.1 < b.1) || (decide (a.1 = b.1) && decide (a.2 ≤ b.2))

/-- Insertion into the sorted-list abstraction of the binary heap. -/
def insertEntry : List (Nat × Nat) → Nat × Nat → List (Nat × Nat)
  | [], e => [e]
  | x :: xs, e => if heapLeB e x then e :: x :: xs else x :: insertEntry xs e

/-- _push_task_heap (src/main.py lines 150 to 152): heapq.heappush of
(send_at.timestamp(), task_id) onto TASK_HEAP, modelled on the sorted-list
abstraction of the heap. -/
def push_task_heap (heap : List (Nat × Nat)) (send_at task_id : Nat) : List (Nat × Nat) :=
  insertEntry heap (send_at, task_id)

/-- The heap invariant: the list abstraction of TASK_HEAP is ordered by
heapLeB, so its head is the heap minimum TASK_HEAP[0]. -/
def HeapOrdered (heap : List (Nat × Nat)) : Prop :=
  List.Pairwise (fun a b => heapLeB a b = true) heap

instance : DecidablePred HeapOrdered := by
  intro heap
  unfold HeapOrdered
  infer_instance

/-- The due check and pop inside _worker_loop (src/main.py lines 186 to 188):
pop the heap minimum exactly when the heap is nonempty and its smallest
fire-time is at most the current clock reading; otherwise return nothing.
The heap minimum TASK_HEAP[0] is the head of the sorted list. -/
def pop_if_due (heap : List (Nat × Nat)) (now : Nat) :
    Option ((Nat × Nat) × List (Nat × Nat)) :=
  match heap with
  | [] => none
  | x :: xs => if x.1 ≤ now then some (x, xs) else none

theorem heapLeB_fst {a b : Nat × Nat} (h : heapLeB a b = true) : a.1 ≤ b.1 := by
  unfold heapLeB at h
  simp at h
  omega

theorem heapLeB_total {a b : Nat × Nat} (h : heapLeB a b = false) : heapLeB b a = true := by
  unfold heapLeB at h ⊢
  simp at h ⊢
  omega

theorem heapLeB_trans {a b c : Nat × Nat} (h1 : heapLeB a b = true)
    (h2 : heapLeB b c = true) : heapLeB a c = true := by
  unfold heapLeB at h1 h2 ⊢
  simp at h1 h2 ⊢
  omega

theorem mem_insertEntry {heap : List (Nat × Nat)} {e y : Nat × Nat}
    (h : y ∈ insertEntry heap e) : y = e ∨ y ∈ heap := by
  induction heap with
  | nil => simpa [insertEntry] using h
  | cons x xs ih =>
    unfold insertEntry at h
    by_cases hle : heapLeB e x = true
    · simp [hle] at h
      rcases h with h | h | h
      · exact Or.inl h
      · exact Or.inr (by simp [h])
      · exact Or.inr (by simp [h])
    · simp [hle] at h
      rcases h with h | h
      · exact Or.inr (by simp [h])
      · rcases ih h with h2 | h2
        · exact Or.inl h2
        · exact Or.inr (by simp [h2])

theorem insertEntry_ordered {heap : List (Nat × Nat)} {e : Nat × Nat}
    (h : HeapOrdered heap) : HeapOrdered (insertEntry heap e) := by
  induction heap with
  | nil => simp [insertEntry, HeapOrdered]
  | cons x xs ih =>
    rcases (List.pairwise_cons.mp h) with ⟨hx, hxs⟩
    unfold insertEntry
    by_cases hle : heapLeB e x = true
    · simp only [hle, if_true]
      refine List.pairwise_cons.mpr ⟨?_, h⟩
      intro y hy
      rcases List.mem_cons.mp hy with h2 | h2
      · exact h2 ▸ hle
      · exact heapLeB_trans hle (hx y h2)
    · simp only [hle, if_false]
      refine List.pairwise_cons.mpr ⟨?_, ih hxs⟩
      intro y hy
      rcases mem_insertEntry hy with h2 | h2
      · have := heapLeB_total (by simpa using hle)
        exact h2 ▸ this
      · exact hx y h2

/-- The per-dispatch mutation of a Task row as committed by one iteration of
_worker_loop (src/main.py lines 203 to 212): on transport success store the
returned Message-ID, set status "sent" and clear last_error; on a transport
exception set status "failed" and store str(e); either way increment attempts
by one. -/
def dispatch_result (t : Task) : Except String String → Task
  | Except.ok msgid =>
    { t with message_id := some msgid, status := Status.sent,
             last_error := none, attempts := t.attempts + 1 }
  | Except.error e =>
    { t with status := Status.failed, last_error := some e,
             attempts := t.attempts + 1 }

/-- One iteration of _worker_loop for a popped task id (src/main.py
lines 194 to 212).  The transport outcome is supplied as a value:
Except.ok msgid models _send_via_smtp returning msgid, Except.error e models
it raising an exception described by e.  Returns the committed tasks table
and whether the transport was called.  When the row is missing or its status
is neither "pending" nor "failed" the entry is discarded with no change
(line 196).  Otherwise status "sending" is written and committed first
(lines 200 to 201), then the transport runs and the outcome is committed. -/
def worker_iteration (tasks : List Task) (tid : Nat) (send : Except String String) :
    List Task × Bool :=
  match getTask tasks tid with
  | none => (tasks, false)
  | some t =>
    if t.status = Status.pending ∨ t.status = Status.failed then
      (setTask (setTask tasks tid { t with status := Status.sending }) tid
        (dispatch_result t send), true)
    else (tasks, false)

/-- Success flag of an Except value. -/
def isOkB : Except String String → Bool
  | Except.ok _ => true
  | Except.error _ => false

/-- The worker loop draining a sequence of popped queue entries, each paired
with what the transport would return if called for it.  Entries for the same
task id may repeat (duplicate pushes are allowed, src/main.py has no
deduplication).  Returns the final tasks table and the list of transport
calls actually made, as (task id, success) pairs. -/
def run_worker (tasks : List Task) :
    List (Nat × Except String String) → List Task × List (Nat × Bool)
  | [] => (tasks, [])
  | (tid, r) :: rest =>
    let step := worker_iteration tasks tid r
    let next := run_worker step.1 rest
    (next.1, (if step.2 then [(tid, isOkB r)] else []) ++ next.2)

/-- Number of successful transport calls made for a given task id. -/
def successCount (calls : List (Nat × Bool)) (tid : Nat) : Nat :=
  (calls.filter (fun c => c.1 == tid && c.2)).length

theorem dispatch_result_id (t : Task) (send : Except String String) :
    (dispatch_result t send).id = t.id := by
  cases send <;> rfl

theorem worker_iteration_called {tasks : List Task} {tid : Nat}
    {send : Except String String} {t : Task}
    (h : getTask tasks tid = some t)
    (he : t.status = Status.pending ∨ t.status = Status.failed) :
    worker_iteration tasks tid send =
      (setTask (setTask tasks tid { t with status := Status.sending }) tid
        (dispatch_result t send), true) := by
  simp [worker_iteration, h, he]

theorem worker_iteration_skip_none {tasks : List Task} {tid : Nat}
    {send : Except String String} (h : getTask tasks tid = none) :
    worker_iteration tasks tid send = (tasks, false) := by
  simp [worker_iteration, h]

theorem worker_iteration_skip_stale {tasks : List Task} {tid : Nat}
    {send : Except String String} {t : Task}
    (h : getTask tasks tid = some t)
    (he : ¬(t.status = Status.pending ∨ t.status = Status.failed)) :
    worker_iteration tasks tid send = (tasks, false) := by
  simp [worker_iteration, h, he]

theorem getTask_after_call {tasks : List Task} {tid : Nat}
    {send : Except String String} {t : Task}
    (h : getTask tasks tid = some t)
    (he : t.status = Status.pending ∨ t.status = Status.failed) :
    getTask (worker_iteration tasks tid send).1 tid = some (dispatch_result t send) := by
  rw [worker_iteration_called h he]
  have hid : t.id = tid := getTask_id h
  have h1 : getTask (setTask tasks tid { t with status := Status.sending }) tid =
      some { t with status := Status.sending } :=
    getTask_setTask_self h (by simpa using hid)
  exact getTask_setTask_self h1 (by rw [dispatch_result_id]; exact hid)

theorem getTask_other_preserved {tasks : List Task} {tid tid2 : Nat}
    {send : Except String String} (hne : tid2 ≠ tid) :
    getTask (worker_iteration tasks tid send).1 tid2 = getTask tasks tid2 := by
  unfold worker_iteration
  cases h : getTask tasks tid with
  | none => rfl
  | some t =>
    by_cases he : t.status = Status.pending ∨ t.status = Status.failed
    · have hid : t.id = tid := getTask_id h
      simp only [he, if_true]
      rw [getTask_setTask_ne (by rw [dispatch_result_id]; exact hid) hne,
        getTask_setTask_ne (by simpa using hid) hne]
    · simp only [he, if_false]

theorem successCount_append (a b : List (Nat × Bool)) (tid : Nat) :
    successCount (a ++ b) tid = successCount a tid + successCount b tid := by
  simp [successCount, List.filter_append]

/-- Once a task row is "sent", later worker iterations never call the
transport for it again: the store keeps the row ineligible forever. -/
theorem run_worker_no_more_success {tasks : List Task} {tid : Nat} {t : Task}
    (entries : List (Nat × Except String String))
    (h : getTask tasks tid = some t) (hs : t.status = Status.sent) :
    successCount (run_worker tasks entries).2 tid = 0 := by
  induction entries generalizing tasks t with
  | nil => simp [run_worker, successCount]
  | cons p rest ih =>
    obtain ⟨tid2, r⟩ := p
    by_cases hsame : tid2 = tid
    · subst hsame
      have hstep : worker_iteration tasks tid2 r = (tasks, false) :=
        worker_iteration_skip_stale h (by simp [hs])
      simp only [run_worker, hstep]
      simpa using ih h hs
    · cases hstep2 : (worker_iteration tasks tid2 r).2 with
      | false =>
        have hfst : (worker_iteration tasks tid2 r).1 = tasks := by
          unfold worker_iteration at hstep2 ⊢
          cases h2 : getTask tasks tid2 with
          | none => rfl
          | some u =>
            by_cases he : u.status = Status.pending ∨ u.status = Status.failed
            · simp [h2, he] at hstep2
            · simp [h2, he]
        simp only [run_worker, hstep2, hfst]
        simpa using ih h hs
      | true =>
        have hpres : getTask (worker_iteration tasks tid2 r).1 tid = some t :=
          (getTask_other_preserved (fun hc => hsame hc.symm)).trans h
        simp only [run_worker, hstep2]
        rw [successCount_append]
        have hz : successCount (if True then [(tid2, isOkB r)] else []) tid = 0 := by
          simp [successCount, hsame]
        rw [hz]
        simpa using ih hpres hs

/-- At most one successful transport call per task id across any run of the
worker loop, whatever duplicate entries the queue produced. -/
theorem run_worker_success_le_one (tasks : List Task)
    (entries : List (Nat × Except String String)) (tid : Nat) :
    successCount (run_worker tasks entries).2 tid ≤ 1 := by
  induction entries generalizing tasks with
  | nil => simp [run_worker, successCount]
  | cons p rest ih =>
    obtain ⟨tid2, r⟩ := p
    cases hstep2 : (worker_iteration tasks tid2 r).2 with
    | false =>
      simp only [run_worker, hstep2]
      simpa using ih (worker_iteration tasks tid2 r).1
    | true =>
      simp only [run_worker, hstep2]
      rw [successCount_append]
      by_cases hrel : tid2 = tid ∧ isOkB r = true
      · obtain ⟨rfl, hok⟩ := hrel
        obtain ⟨msgid, rfl⟩ : ∃ m, r = Except.ok m := by
          cases r with
          | ok m => exact ⟨m, rfl⟩
          | error e => simp [isOkB] at hok
        obtain ⟨t, h, he⟩ : ∃ t, getTask tasks tid2 = some t ∧
            (t.status = Status.pending ∨ t.status = Status.failed) := by
          unfold worker_iteration at hstep2
          cases h : getTask tasks tid2 with
          | none => simp [h] at hstep2
          | some u =>
            by_cases he : u.status = Status.pending ∨ u.status = Status.failed
            · exact ⟨u, rfl, he⟩
            · simp [h, he] at hstep2
        have hafter : getTask (worker_iteration tasks tid2 (Except.ok msgid)).1 tid2 =
            some (dispatch_result t (Except.ok msgid)) := getTask_after_call h he
        have hsent : (dispatch_result t (Except.ok msgid)).status = Status.sent := rfl
        have hrest := run_worker_no_more_success rest hafter hsent
        rw [hrest]
        simp [successCount, isOkB]
      · have hz : successCount (if True then [(tid2, isOkB r)] else []) tid = 0 := by
          by_cases hsame : tid2 = tid
          · have hfalse : isOkB r = false := by
              cases hb : isOkB r with
              | false => rfl
              | true => exact absurd ⟨hsame, hb⟩ hrel
            simp [successCount, hfalse]
          · simp [successCount, hsame]
        rw [hz]
        simpa using ih (worker_iteration tasks tid2 r).1

/-- The Account ORM row (src/main.py lines 62 to 69). -/
structure AccountRow where
  id : Nat
  user_id : Nat
  name : String
  email : String
  password : String
deriving DecidableEq, Repr

/-- account.email.split(at-sign)[-1] as used at src/main.py line 159: the
last field of the address split on the at-sign.  splitOn never returns an
empty list, so the getD default is unreachable. -/
def emailDomain (e : String) : String :=
  ((e.splitOn "@").getLast?).getD e

/-- The fields of the MIMEMultipart message that _send_via_smtp constructs
(src/main.py lines 154 to 172) that the claims concern. -/
structure MimeMessage where
  from_name : String
  from_email : String
  to_email : String
  subject : String
  message_id : String
  in_reply_to : Option String
  references : Option String
  body : String
  has_attachment : Bool
deriving DecidableEq, Repr

/-- _send_via_smtp (src/main.py lines 154 to 180), with the uuid4().hex
token and the on-disk existence of the attachment supplied as inputs; the
network transmission itself is outside the pure model.  The Message-ID is
the fresh token at the sending address domain in angle brackets (line 159);
the In-Reply-To and References headers are both set to the in_reply_to
argument exactly when that argument is truthy in Python, i.e. neither None
nor the empty string (lines 160 to 162).  Returns the constructed message
together with the returned value msg[Message-ID] (line 180). -/
def send_via_smtp (token : String) (account : AccountRow)
    (to_email subject body : String) (attachment_exists : Bool)
    (in_reply_to : Option String) : MimeMessage × String :=
  let mid := "<" ++ token ++ "@" ++ emailDomain account.email ++ ">"
  let irt := match in_reply_to with
    | some s => if s = "" then none else some s
    | none => none
  ({ from_name := account.name, from_email := account.email, to_email := to_email,
     subject := subject, message_id := mid, in_reply_to := irt, references := irt,
     body := body, has_attachment := attachment_exists }, mid)

/-- The User ORM row (src/main.py lines 52 to 60), restricted to what the
poller reads. -/
structure UserRow where
  id : Nat
  gemini_api_key : Option String
deriving DecidableEq, Repr

/-- Python truthiness of a nullable string column: NULL and the empty string
are falsy. -/
def truthyKey : Option String → Bool
  | none => false
  | some s => !(s == "")

/-- A raw mailbox message as the poller sees it after its IMAP fetches in
_imap_poller_loop: the Message-ID header from the header fetch (line 239),
and from the full fetch the In-Reply-To header, decoded From and Subject,
Date, and the extracted plain-text body (lines 244 to 265).  The sentiment
field is the label the external Gemini call would produce for the body, an
oracle input ("Neutral" when the call fails, lines 267 to 278). -/
structure MailMessage where
  message_id : Option String
  in_reply_to : Option String
  from_addr : String
  subject : String
  date : Nat
  body : String
  sentiment : String
deriving DecidableEq, Repr

/-- The Inbox ORM row (src/main.py lines 88 to 101). -/
structure InboxRow where
  account_id : Nat
  from_addr : String
  subject : String
  date : Nat
  body : String
  message_id : Option String
  in_reply_to : Option String
  task_id : Nat
  sentiment : String
deriving DecidableEq, Repr

/-- The persistent state both loops share: the tasks table and the inbox
table. -/
structure EngineState where
  tasks : List Task
  inbox : List InboxRow
deriving DecidableEq, Repr

/-- Handling of one mailbox message inside _imap_poller_loop (src/main.py
lines 234 to 282): skip if an Inbox row with the same Message-ID already
exists (line 241, before the full fetch); skip if the In-Reply-To header is
missing or empty, Python truthiness (line 249); look up a Task anywhere in
the table whose message_id equals the header (line 251, not scoped to the
polled account or user); on a match set that Task status to "replied" and
commit a new Inbox row for the polled account (lines 253 to 282).  On no
match nothing is recorded. -/
def imap_poller_message (acct : Nat) (st : EngineState) (m : MailMessage) :
    EngineState :=
  if st.inbox.any (fun row => row.message_id == m.message_id) then st
  else
    match m.in_reply_to with
    | none => st
    | some r =>
      if r = "" then st
      else
        match st.tasks.find? (fun t => t.message_id == some r) with
        | none => st
        | some tm =>
          { tasks := setTask st.tasks tm.id { tm with status := Status.replied },
            inbox := st.inbox ++
              [{ account_id := acct, from_addr := m.from_addr, subject := m.subject,
                 date := m.date, body := m.body, message_id := m.message_id,
                 in_reply_to := some r, task_id := tm.id, sentiment := m.sentiment }] }

/-- The message loop of _imap_poller_loop for one account (src/main.py
line 234): messages are handled in mailbox order. -/
def imap_poller_messages (acct : Nat) (st : EngineState) (msgs : List MailMessage) :
    EngineState :=
  msgs.foldl (imap_poller_message acct) st

/-- One full pass of _imap_poller_loop (src/main.py lines 216 to 285): for
every user, skip the user entirely when the stored Gemini key is falsy
(line 219); otherwise poll each of the user's accounts.  mailboxOf gives,
per user id, the (account id, fetched messages) pairs the IMAP sessions
would yield for that user's accounts. -/
def imap_poller_pass (users : List UserRow)
    (mailboxOf : Nat → List (Nat × List MailMessage)) (st : EngineState) :
    EngineState :=
  users.foldl
    (fun s u =>
      if truthyKey u.gemini_api_key then
        (mailboxOf u.id).foldl (fun s2 am => imap_poller_messages am.1 s2 am.2) s
      else s) st

/-- The flattened sequence of (account id, message) handling steps a pass
performs: skipped users contribute nothing. -/
def passSteps (users : List UserRow)
    (mailboxOf : Nat → List (Nat × List MailMessage)) : List (Nat × MailMessage) :=
  (users.filter (fun u => truthyKey u.gemini_api_key)).flatMap
    (fun u => (mailboxOf u.id).flatMap (fun am => am.2.map (fun m => (am.1, m))))

/-- Folding the single-message handler over a flattened step sequence. -/
def pollSteps (st : EngineState) (steps : List (Nat × MailMessage)) : EngineState :=
  steps.foldl (fun s am => imap_poller_message am.1 s am.2) st

theorem imap_poller_message_dedup {acct : Nat} {st : EngineState} {m : MailMessage}
    (h : st.inbox.any (fun row => row.message_id == m.message_id) = true) :
    imap_poller_message acct st m = st := by
  simp [imap_poller_message, h]

theorem imap_poller_message_skip {acct : Nat} {st : EngineState} {m : MailMessage}
    (hd : st.inbox.any (fun row => row.message_id == m.message_id) = false)
    (hskip : m.in_reply_to = none ∨ m.in_reply_to = some "" ∨
      ∃ r, m.in_reply_to = some r ∧ r ≠ "" ∧
        st.tasks.find? (fun t => t.message_id == some r) = none) :
    imap_poller_message acct st m = st := by
  rcases hskip with h1 | h1 | ⟨r, h1, h2, h3⟩
  · simp [imap_poller_message, hd, h1]
  · simp [imap_poller_message, hd, h1]
  · simp [imap_poller_message, hd, h1, h2, h3]

theorem imap_poller_message_matched {acct : Nat} {st : EngineState}
    {m : MailMessage} {r : String} {tm : Task}
    (hd : st.inbox.any (fun row => row.message_id == m.message_id) = false)
    (hr : m.in_reply_to = some r) (hre : r ≠ "")
    (hf : st.tasks.find? (fun t => t.message_id == some r) = some tm) :
    imap_poller_message acct st m =
      { tasks := setTask st.tasks tm.id { tm with status := Status.replied },
        inbox := st.inbox ++
          [{ account_id := acct, from_addr := m.from_addr, subject := m.subject,
             date := m.date, body := m.body, message_id := m.message_id,
             in_reply_to := some r, task_id := tm.id, sentiment := m.sentiment }] } := by
  simp [imap_poller_message, hd, hr, hre, hf]

theorem imap_poller_message_inbox_grows (acct : Nat) (st : EngineState)
    (m : MailMessage) :
    ∃ add, (imap_poller_message acct st m).inbox = st.inbox ++ add := by
  unfold imap_poller_message
  by_cases hd : st.inbox.any (fun row => row.message_id == m.message_id) = true
  · exact ⟨[], by simp [hd]⟩
  · cases hr : m.in_reply_to with
    | none => exact ⟨[], by simp [hd, hr]⟩
    | some r =>
      by_cases hre : r = ""
      · exact ⟨[], by simp [hd, hr, hre]⟩
      · cases hf : st.tasks.find? (fun t => t.message_id == some r) with
        | none => exact ⟨[], by simp [hd, hr, hre, hf]⟩
        | some tm =>
          exact ⟨[{ account_id := acct, from_addr := m.from_addr, subject := m.subject,
                    date := m.date, body := m.body, message_id := m.message_id,
                    in_reply_to := some r, task_id := tm.id, sentiment := m.sentiment }],
                 by simp [hd, hr, hre, hf]⟩

theorem imap_poller_message_any_mono {acct : Nat} {st : EngineState}
    {m : MailMessage} {q : InboxRow → Bool}
    (h : st.inbox.any q = true) :
    (imap_poller_message acct st m).inbox.any q = true := by
  obtain ⟨add, hadd⟩ := imap_poller_message_inbox_grows acct st m
  rw [hadd, List.any_append, h]
  rfl

theorem imap_poller_message_unmatched_mono {acct : Nat} {st : EngineState}
    {m : MailMessage} {r0 : String}
    (h : st.tasks.find? (fun t => t.message_id == some r0) = none) :
    (imap_poller_message acct st m).tasks.find? (fun t => t.message_id == some r0) =
      none := by
  unfold imap_poller_message
  by_cases hd : st.inbox.any (fun row => row.message_id == m.message_id) = true
  · simpa [hd] using h
  · cases hr : m.in_reply_to with
    | none => simpa [hd, hr] using h
    | some r =>
      by_cases hre : r = ""
      · simpa [hd, hr, hre] using h
      · cases hf : st.tasks.find? (fun t => t.message_id == some r) with
        | none => simpa [hd, hr, hre, hf] using h
        | some tm =>
          have htm : tm ∈ st.tasks := List.mem_of_find?_eq_some hf
          have hall := List.find?_eq_none.mp h
          simp only [hd, hr, hre, hf, Bool.false_eq_true, if_false]
          rw [List.find?_eq_none]
          intro x hx
          rcases mem_setTask hx with hxe | hxm
          · have := hall tm htm
            simpa [hxe] using this
          · exact hall x hxm

theorem pollSteps_inbox_grows (steps : List (Nat × MailMessage)) (st : EngineState) :
    ∃ add, (pollSteps st steps).inbox = st.inbox ++ add := by
  induction steps generalizing st with
  | nil => exact ⟨[], by simp [pollSteps]⟩
  | cons p rest ih =>
    obtain ⟨a1, h1⟩ := imap_poller_message_inbox_grows p.1 st p.2
    obtain ⟨a2, h2⟩ := ih (imap_poller_message p.1 st p.2)
    exact ⟨a1 ++ a2, by simp [pollSteps] at h2 ⊢; rw [h2, h1, List.append_assoc]⟩

theorem pollSteps_any_mono {steps : List (Nat × MailMessage)} {st : EngineState}
    {q : InboxRow → Bool} (h : st.inbox.any q = true) :
    (pollSteps st steps).inbox.any q = true := by
  obtain ⟨add, hadd⟩ := pollSteps_inbox_grows steps st
  rw [hadd, List.any_append, h]
  rfl

theorem pollSteps_unmatched_mono {steps : List (Nat × MailMessage)}
    {st : EngineState} {r0 : String}
    (h : st.tasks.find? (fun t => t.message_id == some r0) = none) :
    (pollSteps st steps).tasks.find? (fun t => t.message_id == some r0) = none := by
  induction steps generalizing st with
  | nil => simpa [pollSteps] using h
  | cons p rest ih =>
    have h1 := @imap_poller_message_unmatched_mono p.1 _ p.2 _ h
    simpa [pollSteps] using ih h1

/-- Handling any step of a pass a second time, after the whole pass has run,
changes nothing: a persisted message hits the Message-ID dedup check, and a
skipped message is skipped again for the same reason it was skipped before. -/
theorem pollSteps_step_id (steps : List (Nat × MailMessage)) (st : EngineState)
    (p : Nat × MailMessage) (hp : p ∈ steps) :
    imap_poller_message p.1 (pollSteps st steps) p.2 = pollSteps st steps := by
  induction steps generalizing st with
  | nil => cases hp
  | cons q rest ih =>
    have hfold : pollSteps st (q :: rest) =
        pollSteps (imap_poller_message q.1 st q.2) rest := by
      simp [pollSteps]
    rw [hfold]
    rcases List.mem_cons.mp hp with hpq | hpr
    · subst hpq
      by_cases hd : st.inbox.any (fun row => row.message_id == p.2.message_id) = true
      · rw [imap_poller_message_dedup hd]
        exact imap_poller_message_dedup (pollSteps_any_mono hd)
      · have hdf : st.inbox.any (fun row => row.message_id == p.2.message_id) = false :=
          Bool.eq_false_iff.mpr hd
        cases hr : p.2.in_reply_to with
        | none =>
          rw [imap_poller_message_skip hdf (Or.inl hr)]
          by_cases hS : (pollSteps st rest).inbox.any
              (fun row => row.message_id == p.2.message_id) = true
          · exact imap_poller_message_dedup hS
          · exact imap_poller_message_skip (Bool.eq_false_iff.mpr hS) (Or.inl hr)
        | some r =>
          by_cases hre : r = ""
          · subst hre
            rw [imap_poller_message_skip hdf (Or.inr (Or.inl hr))]
            by_cases hS : (pollSteps st rest).inbox.any
                (fun row => row.message_id == p.2.message_id) = true
            · exact imap_poller_message_dedup hS
            · exact imap_poller_message_skip (Bool.eq_false_iff.mpr hS) (Or.inr (Or.inl hr))
          · cases hf : st.tasks.find? (fun t => t.message_id == some r) with
            | none =>
              rw [imap_poller_message_skip hdf (Or.inr (Or.inr ⟨r, hr, hre, hf⟩))]
              have hSf := @pollSteps_unmatched_mono rest st _ hf
              by_cases hS : (pollSteps st rest).inbox.any
                  (fun row => row.message_id == p.2.message_id) = true
              · exact imap_poller_message_dedup hS
              · exact imap_poller_message_skip (Bool.eq_false_iff.mpr hS)
                  (Or.inr (Or.inr ⟨r, hr, hre, hSf⟩))
            | some tm =>
              have hst1any : (imap_poller_message p.1 st p.2).inbox.any
                  (fun row => row.message_id == p.2.message_id) = true := by
                rw [imap_poller_message_matched hdf hr hre hf]
                simp [List.any_append]
              exact imap_poller_message_dedup (pollSteps_any_mono hst1any)
    · exact ih (imap_poller_message q.1 st q.2) hpr

theorem foldl_fixed {α β : Type} {f : α → β → α} {s : α} {l : List β}
    (h : ∀ b ∈ l, f s b = s) : List.foldl f s l = s := by
  induction l with
  | nil => rfl
  | cons b rest ih =>
    rw [List.foldl_cons, h b (by simp)]
    exact ih (fun c hc => h c (by simp [hc]))

/-- Running the same flattened step sequence a second time is a no-op. -/
theorem pollSteps_idem (steps : List (Nat × MailMessage)) (st : EngineState) :
    pollSteps (pollSteps st steps) steps = pollSteps st steps := by
  unfold pollSteps
  exact foldl_fixed (fun p hp => pollSteps_step_id steps st p hp)

theorem imap_poller_messages_eq_pollSteps (acct : Nat) (st : EngineState)
    (msgs : List MailMessage) :
    imap_poller_messages acct st msgs = pollSteps st (msgs.map (fun m => (acct, m))) := by
  unfold imap_poller_messages pollSteps
  rw [List.foldl_map]

theorem accounts_fold_eq_pollSteps (accts : List (Nat × List MailMessage))
    (st : EngineState) :
    accts.foldl (fun s2 am => imap_poller_messages am.1 s2 am.2) st =
      pollSteps st (accts.flatMap (fun am => am.2.map (fun m => (am.1, m)))) := by
  induction accts generalizing st with
  | nil => simp [pollSteps]
  | cons a rest ih =>
    rw [List.foldl_cons, List.flatMap_cons]
    unfold pollSteps
    rw [List.foldl_append]
    rw [ih (imap_poller_messages a.1 st a.2)]
    rw [imap_poller_messages_eq_pollSteps]
    rfl

/-- A poller pass equals handling its flattened step sequence in order. -/
theorem imap_poller_pass_eq_pollSteps (users : List UserRow)
    (mailboxOf : Nat → List (Nat × List MailMessage)) (st : EngineState) :
    imap_poller_pass users mailboxOf st = pollSteps st (passSteps users mailboxOf) := by
  induction users generalizing st with
  | nil => simp [imap_poller_pass, passSteps, pollSteps]
  | cons u rest ih =>
    by_cases hk : truthyKey u.gemini_api_key = true
    · have e1 : imap_poller_pass (u :: rest) mailboxOf st =
          imap_poller_pass rest mailboxOf
            ((mailboxOf u.id).foldl (fun s2 am => imap_poller_messages am.1 s2 am.2) st) := by
        simp [imap_poller_pass, hk]
      have e2 : passSteps (u :: rest) mailboxOf =
          (mailboxOf u.id).flatMap (fun am => am.2.map (fun m => (am.1, m))) ++
            passSteps rest mailboxOf := by
        simp [passSteps, hk]
      rw [e1, e2]
      unfold pollSteps
      rw [List.foldl_append]
      rw [ih, accounts_fold_eq_pollSteps]
      rfl
    · have e1 : imap_poller_pass (u :: rest) mailboxOf st =
          imap_poller_pass rest mailboxOf st := by
        simp [imap_poller_pass, hk]
      have e2 : passSteps (u :: rest) mailboxOf = passSteps rest mailboxOf := by
        simp [passSteps, hk]
      rw [e1, e2, ih]

theorem imap_poller_message_nodup {acct : Nat} {st : EngineState} {m : MailMessage}
    (h : (st.inbox.map (fun row => row.message_id)).Nodup) :
    ((imap_poller_message acct st m).inbox.map (fun row => row.message_id)).Nodup := by
  by_cases hd : st.inbox.any (fun row => row.message_id == m.message_id) = true
  · rw [imap_poller_message_dedup hd]
    exact h
  · have hdf : st.inbox.any (fun row => row.message_id == m.message_id) = false :=
      Bool.eq_false_iff.mpr hd
    have hnotin : ∀ row ∈ st.inbox, row.message_id ≠ m.message_id := by
      intro row hrow hcontra
      have : st.inbox.any (fun row => row.message_id == m.message_id) = true :=
        List.any_eq_true.mpr ⟨row, hrow, by simp [hcontra]⟩
      rw [this] at hdf
      cases hdf
    cases hr : m.in_reply_to with
    | none =>
      rw [imap_poller_message_skip hdf (Or.inl hr)]
      exact h
    | some r =>
      by_cases hre : r = ""
      · subst hre
        rw [imap_poller_message_skip hdf (Or.inr (Or.inl hr))]
        exact h
      · cases hf : st.tasks.find? (fun t => t.message_id == some r) with
        | none =>
          rw [imap_poller_message_skip hdf (Or.inr (Or.inr ⟨r, hr, hre, hf⟩))]
          exact h
        | some tm =>
          rw [imap_poller_message_matched hdf hr hre hf]
          simp only [List.map_append, List.map_cons, List.map_nil]
          rw [List.nodup_append]
          refine ⟨h, List.nodup_singleton _, ?_⟩
          intro x hx hx2
          simp at hx2
          obtain ⟨row, hrow, hrowx⟩ := List.mem_map.mp hx
          exact hnotin row hrow (by rw [hrowx, hx2])

theorem pollSteps_nodup {steps : List (Nat × MailMessage)} {st : EngineState}
    (h : (st.inbox.map (fun row => row.message_id)).Nodup) :
    ((pollSteps st steps).inbox.map (fun row => row.message_id)).Nodup := by
  induction steps generalizing st with
  | nil => simpa [pollSteps] using h
  | cons p rest ih =>
    have h1 := @imap_poller_message_nodup p.1 _ p.2 h
    simpa [pollSteps] using ih h1

/-- Every Inbox row written by polling one account carries that account's id. -/
theorem imap_poller_messages_account {acct : Nat} {st : EngineState}
    {msgs : List MailMessage} {row : InboxRow}
    (h : row ∈ (imap_poller_messages acct st msgs).inbox) :
    row ∈ st.inbox ∨ row.account_id = acct := by
  induction msgs generalizing st with
  | nil => exact Or.inl (by simpa [imap_poller_messages] using h)
  | cons m rest ih =>
    have hstep : imap_poller_messages acct st (m :: rest) =
        imap_poller_messages acct (imap_poller_message acct st m) rest := by
      simp [imap_poller_messages]
    rw [hstep] at h
    rcases ih h with h1 | h1
    · by_cases hd : st.inbox.any (fun row => row.message_id == m.message_id) = true
      · rw [imap_poller_message_dedup hd] at h1
        exact Or.inl h1
      · have hdf : st.inbox.any (fun row => row.message_id == m.message_id) = false :=
          Bool.eq_false_iff.mpr hd
        cases hr : m.in_reply_to with
        | none =>
          rw [imap_poller_message_skip hdf (Or.inl hr)] at h1
          exact Or.inl h1
        | some r =>
          by_cases hre : r = ""
          · subst hre
            rw [imap_poller_message_skip hdf (Or.inr (Or.inl hr))] at h1
            exact Or.inl h1
          · cases hf : st.tasks.find? (fun t => t.message_id == some r) with
            | none =>
              rw [imap_poller_message_skip hdf (Or.inr (Or.inr ⟨r, hr, hre, hf⟩))] at h1
              exact Or.inl h1
            | some tm =>
              rw [imap_poller_message_matched hdf hr hre hf] at h1
              simp only [List.mem_append] at h1
              rcases h1 with h1 | h1
              · exact Or.inl h1
              · right
                simp at h1
                rw [h1]
    · exact Or.inr h1

deriving instance DecidableEq for Except

/-- Injected outcomes for the fallible operations of one _worker_loop
iteration.  load_ok: the session.query(Task).get at src/main.py line 195,
which sits outside the try block; commit1_ok: the session.commit at line 201,
inside the try block; send: the _send_via_smtp call at line 202, inside the
try block; commit2_ok: the session.commit at line 212, in the finally clause,
where an exception is not caught by the except at line 206. -/
structure WorkerOutcomes where
  load_ok : Bool
  commit1_ok : Bool
  send : Except String String
  commit2_ok : Bool
deriving DecidableEq, Repr

/-- One _worker_loop iteration with failure injection (src/main.py
lines 194 to 212).  Except.error models an exception escaping the iteration
and killing the loop thread; Except.ok models the loop reaching its next
iteration.  The try block catches failures of the sending-status commit and
of the transport call, recording status "failed" and the error text; the
task load and the finally-clause commit are outside any except, so their
failures propagate. -/
def worker_iterationE (eff : WorkerOutcomes) (tasks : List Task) (tid : Nat) :
    Except String (List Task) :=
  if eff.load_ok = false then Except.error "store failure on task load"
  else
    match getTask tasks tid with
    | none => Except.ok tasks
    | some t =>
      if t.status = Status.pending ∨ t.status = Status.failed then
        let afterTry : Task :=
          if eff.commit1_ok = false then
            { t with status := Status.failed, last_error := some "commit failure" }
          else
            match eff.send with
            | Except.ok msgid =>
              { t with message_id := some msgid, status := Status.sent,
                       last_error := none }
            | Except.error e => { t with status := Status.failed, last_error := some e }
        if eff.commit2_ok = false then Except.error "store failure on final commit"
        else Except.ok (setTask tasks tid { afterTry with attempts := t.attempts + 1 })
      else Except.ok tasks

/-- Running _worker_loop over queue entries with failure injection: the loop
body has no handler around it, so the first uncaught exception terminates the
loop.  Returns the outcome and how many iterations completed. -/
def run_workerE (tasks : List Task) :
    List (Nat × WorkerOutcomes) → Except String (List Task) × Nat
  | [] => (Except.ok tasks, 0)
  | (tid, eff) :: rest =>
    match worker_iterationE eff tasks tid with
    | Except.error e => (Except.error e, 0)
    | Except.ok tasks2 =>
      let next := run_workerE tasks2 rest
      (next.1, next.2 + 1)

/-- One account's poll work in a pass: its id, whether its mailbox work
raises (an IMAP, parse or per-account store failure inside the try block at
src/main.py lines 222 to 285), and the messages it would otherwise yield. -/
structure AccountPoll where
  account_id : Nat
  mailbox_fails : Bool
  msgs : List MailMessage
deriving Repr

/-- The account loop of _imap_poller_loop with its per-account try block
(src/main.py lines 221 to 285): any exception for one account is caught at
line 284 and, after the log, the pass continues with the next account. -/
def poll_accountsE (st : EngineState) (accts : List AccountPoll) : EngineState :=
  accts.foldl
    (fun s a => if a.mailbox_fails then s else imap_poller_messages a.account_id s a.msgs)
    st

/-- Claim C1: for every due-queue entry popped by the dispatch worker whose
referenced request exists with status pending or failed: if the transport
call succeeds, the returned correlation identifier is stored, the status is
set to "sent" and the last error is cleared; if the transport call raises
any failure, the status is set to "failed" and the failure description is
stored; in either case the attempt count is incremented by exactly one, and
the shown row is the one persisted by the final commit. -/
theorem claim_C1 (tasks : List Task) (tid : Nat) (t : Task)
    (send : Except String String)
    (h : getTask tasks tid = some t)
    (he : t.status = Status.pending ∨ t.status = Status.failed) :
    (∀ msgid, send = Except.ok msgid →
      getTask (worker_iteration tasks tid send).1 tid =
        some { t with message_id := some msgid, status := Status.sent,
                      last_error := none, attempts := t.attempts + 1 }) ∧
    (∀ e, send = Except.error e →
      getTask (worker_iteration tasks tid send).1 tid =
        some { t with status := Status.failed, last_error := some e,
                      attempts := t.attempts + 1 }) := by
  constructor
  · intro msgid hs
    subst hs
    exact getTask_after_call h he
  · intro e hs
    subst hs
    exact getTask_after_call h he

def c1Task : Task := mkTask 1 1 "alice@example.test" "Hello" "Body" 100 none

theorem claim_C1_witness :
    getTask (worker_iteration [c1Task] 1 (Except.ok "<tok@example.test>")).1 1 =
      some { c1Task with
              message_id := some "<tok@example.test>", status := Status.sent,
              last_error := none, attempts := c1Task.attempts + 1 } ∧
    getTask (worker_iteration [c1Task] 1 (Except.error "auth failed")).1 1 =
      some { c1Task with
              status := Status.failed, last_error := some "auth failed",
              attempts := c1Task.attempts + 1 } := by
  constructor
  · exact (claim_C1 [c1Task] 1 c1Task (Except.ok "<tok@example.test>") rfl
      (Or.inl rfl)).1 "<tok@example.test>" rfl
  · exact (claim_C1 [c1Task] 1 c1Task (Except.error "auth failed") rfl
      (Or.inl rfl)).2 "auth failed" rfl

/-- Claim C2: at most one successful transport call occurs per request per
run of the worker, whatever duplicate queue entries exist; a dispatch
attempt that observes status "sending" abandons the entry without calling
the transport and without changing anything; and for an eligible row the
store committed before the transport call holds that row at status
"sending". -/
theorem claim_C2 :
    (∀ tasks entries tid, successCount (run_worker tasks entries).2 tid ≤ 1) ∧
    (∀ tasks tid t send, getTask tasks tid = some t → t.status = Status.sending →
      worker_iteration tasks tid send = (tasks, false)) ∧
    (∀ tasks tid t, getTask tasks tid = some t →
      (t.status = Status.pending ∨ t.status = Status.failed) →
      getTask (setTask tasks tid { t with status := Status.sending }) tid =
        some { t with status := Status.sending }) := by
  refine ⟨run_worker_success_le_one, ?_, ?_⟩
  · intro tasks tid t send h hs
    exact worker_iteration_skip_stale h (by simp [hs])
  · intro tasks tid t h _he
    exact getTask_setTask_self h (by simpa using getTask_id h)

def c2Task : Task := mkTask 3 1 "bob@example.test" "S" "B" 0 none

def c2SendingTask : Task :=
  { c2Task with id := 4, status := Status.sending }

theorem claim_C2_witness :
    successCount
      (run_worker [c2Task] [(3, Except.ok "<a@d.test>"), (3, Except.ok "<b@d.test>")]).2
      3 ≤ 1 ∧
    worker_iteration [c2SendingTask] 4 (Except.ok "<c@d.test>") =
      ([c2SendingTask], false) ∧
    getTask (setTask [c2Task] 3 { c2Task with status := Status.sending }) 3 =
      some { c2Task with status := Status.sending } := by
  refine ⟨?_, ?_, ?_⟩
  · exact claim_C2.1 [c2Task] [(3, Except.ok "<a@d.test>"), (3, Except.ok "<b@d.test>")] 3
  · exact claim_C2.2.1 [c2SendingTask] 4 c2SendingTask (Except.ok "<c@d.test>") rfl rfl
  · exact claim_C2.2.2 [c2Task] 3 c2Task rfl (Or.inl rfl)

/-- Claim C8: a popped due-queue entry whose referenced request no longer
exists, or whose status is neither "pending" nor "failed", is discarded
silently: no transport call is made, the tasks table is unchanged, and the
loop continues with the next entry as if the entry had not been there. -/
theorem claim_C8 (tasks : List Task) (tid : Nat) (send : Except String String)
    (rest : List (Nat × Except String String))
    (h : getTask tasks tid = none ∨
      ∃ t, getTask tasks tid = some t ∧
        t.status ≠ Status.pending ∧ t.status ≠ Status.failed) :
    worker_iteration tasks tid send = (tasks, false) ∧
    run_worker tasks ((tid, send) :: rest) = run_worker tasks rest := by
  have hstep : worker_iteration tasks tid send = (tasks, false) := by
    rcases h with h1 | ⟨t, h1, h2, h3⟩
    · exact worker_iteration_skip_none h1
    · refine worker_iteration_skip_stale h1 ?_
      rintro (hc | hc)
      · exact h2 hc
      · exact h3 hc
  refine ⟨hstep, ?_⟩
  simp [run_worker, hstep]

def c8Task : Task :=
  { id := 2, account_id := 1, receiver := "r@example.test", subject := "s",
    body := "b", send_at := 0, status := Status.sent, attempts := 1,
    last_error := none, message_id := some "<m@d.test>", attachment_path := none }

theorem claim_C8_witness :
    worker_iteration [c8Task] 2 (Except.ok "<n@d.test>") = ([c8Task], false) ∧
    run_worker [c8Task] [(2, Except.ok "<n@d.test>")] = run_worker [c8Task] [] :=
  claim_C8 [c8Task] 2 (Except.ok "<n@d.test>") []
    (Or.inr ⟨c8Task, rfl, by decide, by decide⟩)

/-- Claim C3: on an ordered heap, the pop returns the entry with the
smallest fire-time exactly when that fire-time is at most the current clock
reading, and returns nothing otherwise (so the popped fire-time never
exceeds the clock: dispatch happens at a wall-clock time at or after the
requested fire-time); and pushing preserves the heap order the pop relies
on. -/
theorem claim_C3 (heap : List (Nat × Nat)) (e : Nat × Nat) (now : Nat)
    (hs : HeapOrdered heap) :
    (∀ x rest, pop_if_due heap now = some (x, rest) →
      x.1 ≤ now ∧ (∀ y ∈ heap, x.1 ≤ y.1) ∧ heap = x :: rest) ∧
    (pop_if_due heap now = none → ∀ y ∈ heap, now < y.1) ∧
    HeapOrdered (push_task_heap heap e.1 e.2) := by
  refine ⟨?_, ?_, insertEntry_ordered hs⟩
  · intro x rest hpop
    cases heap with
    | nil => simp [pop_if_due] at hpop
    | cons h0 tl =>
      rcases List.pairwise_cons.mp hs with ⟨hhd, _⟩
      simp only [pop_if_due] at hpop
      by_cases hle : h0.1 ≤ now
      · rw [if_pos hle] at hpop
        cases hpop
        refine ⟨hle, ?_, rfl⟩
        intro y hy
        rcases List.mem_cons.mp hy with h1 | h1
        · rw [h1]
        · exact heapLeB_fst (hhd y h1)
      · rw [if_neg hle] at hpop
        cases hpop
  · intro hpop y hy
    cases heap with
    | nil => cases hy
    | cons h0 tl =>
      rcases List.pairwise_cons.mp hs with ⟨hhd, _⟩
      simp only [pop_if_due] at hpop
      by_cases hle : h0.1 ≤ now
      · rw [if_pos hle] at hpop
        cases hpop
      · rcases List.mem_cons.mp hy with h1 | h1
        · rw [h1]
          omega
        · have := heapLeB_fst (hhd y h1)
          omega

theorem claim_C3_witness :
    (((5, 1) : Nat × Nat).1 ≤ 6 ∧
      (∀ y ∈ [((5 : Nat), (1 : Nat)), (7, 2)], ((5, 1) : Nat × Nat).1 ≤ y.1) ∧
      [((5 : Nat), (1 : Nat)), (7, 2)] = (5, 1) :: [(7, 2)]) ∧
    HeapOrdered (push_task_heap [(5, 1), (7, 2)] 3 9) := by
  constructor
  · exact (claim_C3 [(5, 1), (7, 2)] (3, 9) 6 (by decide)).1 (5, 1) [(7, 2)] rfl
  · exact (claim_C3 [(5, 1), (7, 2)] (3, 9) 6 (by decide)).2.2

/-- Claim C9: every transport-client invocation constructs a message whose
own correlation identifier is the freshly generated token at the sending
address domain in angle brackets; when a non-empty "in reply to"
correlation id is supplied, both the In-Reply-To and the References headers
are set to that prior id (an empty string is falsy in Python and counts as
not supplied, src/main.py line 160); and the call returns exactly the newly
generated correlation identifier. -/
theorem claim_C9 (token : String) (account : AccountRow)
    (to_email subject body : String) (attachment_exists : Bool)
    (in_reply_to : Option String) :
    ((send_via_smtp token account to_email subject body attachment_exists
        in_reply_to).1.message_id =
      "<" ++ token ++ "@" ++ emailDomain account.email ++ ">") ∧
    ((send_via_smtp token account to_email subject body attachment_exists
        in_reply_to).2 =
      (send_via_smtp token account to_email subject body attachment_exists
        in_reply_to).1.message_id) ∧
    (∀ r, in_reply_to = some r → r ≠ "" →
      (send_via_smtp token account to_email subject body attachment_exists
          in_reply_to).1.in_reply_to = some r ∧
      (send_via_smtp token account to_email subject body attachment_exists
          in_reply_to).1.references = some r) ∧
    (in_reply_to = none →
      (send_via_smtp token account to_email subject body attachment_exists
          in_reply_to).1.in_reply_to = none ∧
      (send_via_smtp token account to_email subject body attachment_exists
          in_reply_to).1.references = none) := by
  refine ⟨rfl, rfl, ?_, ?_⟩
  · intro r h1 h2
    subst h1
    constructor <;> simp [send_via_smtp, h2]
  · intro h1
    subst h1
    exact ⟨rfl, rfl⟩

def c9Account : AccountRow :=
  { id := 1, user_id := 1, name := "Work", email := "me@gmail.test",
    password := "pw" }

theorem claim_C9_witness :
    ((send_via_smtp "abc123" c9Account "to@x.test" "Sub" "Body" false
        (some "<prev@gmail.test>")).1.message_id =
      "<" ++ "abc123" ++ "@" ++ emailDomain c9Account.email ++ ">") ∧
    ((send_via_smtp "abc123" c9Account "to@x.test" "Sub" "Body" false
        (some "<prev@gmail.test>")).1.in_reply_to = some "<prev@gmail.test>" ∧
      (send_via_smtp "abc123" c9Account "to@x.test" "Sub" "Body" false
        (some "<prev@gmail.test>")).1.references = some "<prev@gmail.test>") := by
  constructor
  · exact (claim_C9 "abc123" c9Account "to@x.test" "Sub" "Body" false
      (some "<prev@gmail.test>")).1
  · exact (claim_C9 "abc123" c9Account "to@x.test" "Sub" "Body" false
      (some "<prev@gmail.test>")).2.2.1 "<prev@gmail.test>" rfl (by decide)

/-- Claim C4: a Task status becomes "replied" through the poller exactly
when the handled mailbox message passes the Message-ID dedup check and
carries a truthy In-Reply-To value whose Task lookup picks that row; the
worker never writes "replied" (its outcomes are "sending", "sent" and
"failed" and it leaves ineligible rows alone); and a freshly created request
starts at "pending", not "replied". -/
theorem claim_C4 :
    (∀ acct st m tid t, getTask st.tasks tid = some t →
      (((getTask (imap_poller_message acct st m).tasks tid).map Task.status =
          some Status.replied) ↔
        (t.status = Status.replied ∨
          (st.inbox.any (fun row => row.message_id == m.message_id) = false ∧
            ∃ r, m.in_reply_to = some r ∧ r ≠ "" ∧
              (st.tasks.find? (fun u => u.message_id == some r)).map Task.id =
                some tid)))) ∧
    (∀ tasks tid send tid2 t2,
      getTask (worker_iteration tasks tid send).1 tid2 = some t2 →
      t2.status = Status.replied →
      ∃ t0, getTask tasks tid2 = some t0 ∧ t0.status = Status.replied) ∧
    (∀ id acct receiver subject body send_at ap,
      (mkTask id acct receiver subject body send_at ap).status = Status.pending) := by
  refine ⟨?_, ?_, ?_⟩
  · intro acct st m tid t h
    by_cases hd : st.inbox.any (fun row => row.message_id == m.message_id) = true
    · rw [imap_poller_message_dedup hd, h]
      constructor
      · intro h1
        left
        simpa using h1
      · rintro (h1 | ⟨h2, _⟩)
        · simpa using h1
        · rw [hd] at h2
          cases h2
    · have hdf : st.inbox.any (fun row => row.message_id == m.message_id) = false :=
        Bool.eq_false_iff.mpr hd
      cases hr : m.in_reply_to with
      | none =>
        rw [imap_poller_message_skip hdf (Or.inl hr), h]
        constructor
        · intro h1
          left
          simpa using h1
        · rintro (h1 | ⟨_, r2, hr2, _, _⟩)
          · simpa using h1
          · cases hr2
      | some r =>
        by_cases hre : r = ""
        · subst hre
          rw [imap_poller_message_skip hdf (Or.inr (Or.inl hr)), h]
          constructor
          · intro h1
            left
            simpa using h1
          · rintro (h1 | ⟨_, r2, hr2, hre2, _⟩)
            · simpa using h1
            · injection hr2 with hr3
              exact absurd hr3.symm hre2
        · cases hf : st.tasks.find? (fun u => u.message_id == some r) with
          | none =>
            rw [imap_poller_message_skip hdf (Or.inr (Or.inr ⟨r, hr, hre, hf⟩)), h]
            constructor
            · intro h1
              left
              simpa using h1
            · rintro (h1 | ⟨_, r2, hr2, _, hf2⟩)
              · simpa using h1
              · injection hr2 with hr3
                subst hr3
                rw [hf] at hf2
                simp at hf2
          | some tm =>
            rw [imap_poller_message_matched hdf hr hre hf]
            by_cases hid : tid = tm.id
            · have hex : getTask st.tasks tm.id = some t := by
                rw [← hid]
                exact h
              have hget : getTask
                  (setTask st.tasks tm.id { tm with status := Status.replied }) tid =
                  some { tm with status := Status.replied } := by
                rw [hid]
                exact getTask_setTask_self hex rfl
              constructor
              · intro _
                refine Or.inr ⟨hdf, r, rfl, hre, ?_⟩
                rw [hf]
                simp [hid]
              · intro _
                rw [hget]
                rfl
            · have hget : getTask
                  (setTask st.tasks tm.id { tm with status := Status.replied }) tid =
                  getTask st.tasks tid :=
                getTask_setTask_ne rfl hid
              rw [hget, h]
              constructor
              · intro h1
                left
                simpa using h1
              · rintro (h1 | ⟨_, r2, hr2, _, hf2⟩)
                · simpa using h1
                · injection hr2 with hr3
                  subst hr3
                  rw [hf] at hf2
                  simp at hf2
                  exact absurd hf2.symm hid
  · intro tasks tid send tid2 t2 hafter hrep
    by_cases hsame : tid2 = tid
    · subst hsame
      cases h : getTask tasks tid2 with
      | none =>
        have heq : (worker_iteration tasks tid2 send).1 = tasks := by
          rw [worker_iteration_skip_none h]
        rw [heq, h] at hafter
        cases hafter
      | some t =>
        by_cases he : t.status = Status.pending ∨ t.status = Status.failed
        · have hcall := @getTask_after_call _ _ send _ h he
          rw [hcall] at hafter
          injection hafter with h2
          rw [← h2] at hrep
          cases send with
          | ok msgid => simp [dispatch_result] at hrep
          | error e => simp [dispatch_result] at hrep
        · have heq : (worker_iteration tasks tid2 send).1 = tasks := by
            rw [worker_iteration_skip_stale h he]
          rw [heq] at hafter
          exact ⟨t2, h.symm.trans hafter, hrep⟩
    · rw [getTask_other_preserved hsame] at hafter
      exact ⟨t2, hafter, hrep⟩
  · intro id acct receiver subject body send_at ap
    rfl

def c4Task : Task :=
  { id := 5, account_id := 9, receiver := "eve@example.test", subject := "Offer",
    body := "B", send_at := 0, status := Status.sent, attempts := 1,
    last_error := none, message_id := some "<corr@d.test>",
    attachment_path := none }

def c4State : EngineState := { tasks := [c4Task], inbox := [] }

def c4Msg : MailMessage :=
  { message_id := some "<reply@ext.test>", in_reply_to := some "<corr@d.test>",
    from_addr := "eve@example.test", subject := "Re: Offer", date := 7,
    body := "Sounds good", sentiment := "Positive" }

theorem claim_C4_witness :
    ((getTask (imap_poller_message 9 c4State c4Msg).tasks 5).map Task.status =
        some Status.replied) ↔
      (c4Task.status = Status.replied ∨
        (c4State.inbox.any (fun row => row.message_id == c4Msg.message_id) = false ∧
          ∃ r, c4Msg.in_reply_to = some r ∧ r ≠ "" ∧
            (c4State.tasks.find? (fun u => u.message_id == some r)).map Task.id =
              some 5)) :=
  claim_C4.1 9 c4State c4Msg 5 c4Task rfl

/-- Claim C5: inbound Message-IDs stay pairwise distinct across everything a
poller pass persists, and a pass is idempotent: running the same pass again
over the same mailbox contents creates no new Inbox rows and changes nothing
at all, because a message whose Message-ID already has an Inbox row is
skipped before the full fetch, and a message that was skipped is skipped
again for a reason that still holds. -/
theorem claim_C5 :
    (∀ users mailboxOf st,
      ((st : EngineState).inbox.map (fun row => row.message_id)).Nodup →
      ((imap_poller_pass users mailboxOf st).inbox.map
        (fun row => row.message_id)).Nodup) ∧
    (∀ users mailboxOf st,
      imap_poller_pass users mailboxOf (imap_poller_pass users mailboxOf st) =
        imap_poller_pass users mailboxOf st) ∧
    (∀ acct st m,
      st.inbox.any (fun row => row.message_id == m.message_id) = true →
      imap_poller_message acct st m = st) := by
  refine ⟨?_, ?_, ?_⟩
  · intro users mailboxOf st h
    rw [imap_poller_pass_eq_pollSteps]
    exact pollSteps_nodup h
  · intro users mailboxOf st
    simp only [imap_poller_pass_eq_pollSteps]
    exact pollSteps_idem _ _
  · intro acct st m h
    exact imap_poller_message_dedup h

def c5User : UserRow := { id := 1, gemini_api_key := some "key" }

def c5Task : Task :=
  { id := 6, account_id := 12, receiver := "pat@example.test", subject := "Hi",
    body := "B", send_at := 0, status := Status.sent, attempts := 1,
    last_error := none, message_id := some "<c5@d.test>",
    attachment_path := none }

def c5Msg : MailMessage :=
  { message_id := some "<c5reply@ext.test>", in_reply_to := some "<c5@d.test>",
    from_addr := "pat@example.test", subject := "Re: Hi", date := 2,
    body := "hello", sentiment := "Neutral" }

def c5MailboxOf : Nat → List (Nat × List MailMessage) :=
  fun uid => if uid = 1 then [(12, [c5Msg, c5Msg])] else []

def c5State : EngineState := { tasks := [c5Task], inbox := [] }

theorem claim_C5_witness :
    ((imap_poller_pass [c5User] c5MailboxOf c5State).inbox.map
      (fun row => row.message_id)).Nodup ∧
    imap_poller_pass [c5User] c5MailboxOf
        (imap_poller_pass [c5User] c5MailboxOf c5State) =
      imap_poller_pass [c5User] c5MailboxOf c5State := by
  constructor
  · exact claim_C5.1 [c5User] c5MailboxOf c5State (by decide)
  · exact claim_C5.2.1 [c5User] c5MailboxOf c5State

/-- Claim C6 (amended): a polled message whose In-Reply-To value matches no
request at that time is skipped with nothing persisted at all — in
particular it is not marked seen — so the lookup is retried on every later
pass while the message stays in the search window, and if a request with
that correlation identifier exists by then, the message is matched and the
request becomes "replied". -/
theorem claim_C6 :
    (∀ acct st m r,
      st.inbox.any (fun row => row.message_id == m.message_id) = false →
      m.in_reply_to = some r → r ≠ "" →
      st.tasks.find? (fun t => t.message_id == some r) = none →
      imap_poller_message acct st m = st) ∧
    (∀ acct st m r tm,
      st.inbox.any (fun row => row.message_id == m.message_id) = false →
      m.in_reply_to = some r → r ≠ "" →
      st.tasks.find? (fun t => t.message_id == some r) = some tm →
      imap_poller_message acct st m =
        { tasks := setTask st.tasks tm.id { tm with status := Status.replied },
          inbox := st.inbox ++
            [{ account_id := acct, from_addr := m.from_addr, subject := m.subject,
               date := m.date, body := m.body, message_id := m.message_id,
               in_reply_to := some r, task_id := tm.id,
               sentiment := m.sentiment }] }) := by
  constructor
  · intro acct st m r hd hr hre hf
    exact imap_poller_message_skip hd (Or.inr (Or.inr ⟨r, hr, hre, hf⟩))
  · intro acct st m r tm hd hr hre hf
    exact imap_poller_message_matched hd hr hre hf

def c6Task : Task := mkTask 1 20 "carol@x.test" "Subject" "Body" 0 none

def c6Msg : MailMessage :=
  { message_id := some "<m1@ext.test>", in_reply_to := some "<x1@dom.test>",
    from_addr := "carol@x.test", subject := "Re: Subject", date := 5,
    body := "reply", sentiment := "Neutral" }

def c6State : EngineState := { tasks := [c6Task], inbox := [] }

/-- The dispatched form of the same store: the worker has sent task 1 and
stored correlation identifier <x1@dom.test> on it. -/
def c6StateAfterSend : EngineState :=
  { tasks := (worker_iteration [c6Task] 1 (Except.ok "<x1@dom.test>")).1,
    inbox := [] }

/-- Counterexample to claim C6 as stated: the unmatched message is NOT
marked seen on the first pass (the state is unchanged, no Inbox row exists),
and once the worker has dispatched the request and stored that correlation
identifier, a later pass over the same message matches it and sets the
request to "replied" — so the lookup IS retried and the message CAN be
matched afterwards. -/
theorem claim_C6_counterexample :
    imap_poller_message 10 c6State c6Msg = c6State ∧
    (getTask (imap_poller_message 10 c6StateAfterSend c6Msg).tasks 1).map
        Task.status = some Status.replied ∧
    (imap_poller_message 10 c6StateAfterSend c6Msg).inbox.length = 1 := by
  refine ⟨?_, ?_, ?_⟩ <;> rfl

theorem claim_C6_witness :
    imap_poller_message 10 c6State c6Msg = c6State ∧
    imap_poller_message 10 c6StateAfterSend c6Msg =
      { tasks := setTask c6StateAfterSend.tasks 1
          { (getTask c6StateAfterSend.tasks 1).getD c6Task with
              status := Status.replied },
        inbox := c6StateAfterSend.inbox ++
          [{ account_id := 10, from_addr := c6Msg.from_addr,
             subject := c6Msg.subject, date := c6Msg.date, body := c6Msg.body,
             message_id := c6Msg.message_id, in_reply_to := some "<x1@dom.test>",
             task_id := 1, sentiment := c6Msg.sentiment }] } := by
  constructor
  · exact claim_C6.1 10 c6State c6Msg "<x1@dom.test>" rfl rfl (by decide) rfl
  · exact claim_C6.2 10 c6StateAfterSend c6Msg "<x1@dom.test>"
      ((getTask c6StateAfterSend.tasks 1).getD c6Task) rfl rfl (by decide) rfl

/-- Success flag of a worker iteration outcome. -/
def isOkE : Except String (List Task) → Bool
  | Except.ok _ => true
  | Except.error _ => false

/-- Claim C7 (amended): the failures the code actually guards meet the
claim — a transport failure or a failing sending-status commit inside the
worker try block never ends the iteration with an escaping exception, and
inside a poll pass one account's failure is caught so the remaining accounts
are still polled — but a store failure at the worker task load or at the
finally-clause commit escapes and terminates the loop (see the
counterexample). -/
theorem claim_C7 :
    (∀ eff tasks tid, eff.load_ok = true → eff.commit2_ok = true →
      isOkE (worker_iterationE eff tasks tid) = true) ∧
    (∀ st a accts, a.mailbox_fails = true →
      poll_accountsE st (a :: accts) = poll_accountsE st accts) := by
  constructor
  · intro eff tasks tid h1 h2
    unfold worker_iterationE
    rw [h1, h2]
    simp only [Bool.true_eq_false, if_false]
    split
    · rfl
    · split
      · rfl
      · rfl
  · intro st a accts h
    simp [poll_accountsE, h]

def c7Task : Task := mkTask 1 1 "dave@x.test" "S" "B" 0 none

/-- First queue entry: load and both the sending commit and the transport
succeed, but the finally-clause commit raises. -/
def c7Bad : WorkerOutcomes :=
  { load_ok := true, commit1_ok := true, send := Except.ok "<ok@x.test>",
    commit2_ok := false }

def c7Good : WorkerOutcomes :=
  { load_ok := true, commit1_ok := true, send := Except.ok "<ok2@x.test>",
    commit2_ok := true }

/-- Counterexample to claim C7 as stated: a store failure in the final
commit of the first iteration escapes (the commit at src/main.py line 212
sits in the finally clause, outside the except), the loop terminates with
the exception, zero iterations complete, and the second queue entry is never
processed — the loop does not proceed to its next iteration. -/
theorem claim_C7_counterexample :
    (run_workerE [c7Task] [(1, c7Bad), (1, c7Good)]).1 =
      Except.error "store failure on final commit" ∧
    (run_workerE [c7Task] [(1, c7Bad), (1, c7Good)]).2 = 0 := by
  exact ⟨rfl, rfl⟩

def c7State : EngineState := { tasks := [], inbox := [] }

def c7FailAcct : AccountPoll :=
  { account_id := 30, mailbox_fails := true, msgs := [] }

def c7OkAcct : AccountPoll :=
  { account_id := 31, mailbox_fails := false, msgs := [] }

theorem claim_C7_witness :
    isOkE (worker_iterationE c7Good [c7Task] 1) = true ∧
    poll_accountsE c7State [c7FailAcct, c7OkAcct] =
      poll_accountsE c7State [c7OkAcct] := by
  constructor
  · exact claim_C7.1 c7Good [c7Task] 1 rfl rfl
  · exact claim_C7.2 c7State c7FailAcct [c7OkAcct] rfl

/-- Claim C10 (amended): a user whose stored Gemini key is empty or null is
skipped by every poller pass — the pass equals the pass over only the
key-bearing users, so none of the skipped user's mailboxes is opened, and
every Inbox row a poll writes carries the id of the account actually being
polled, so none is recorded for the skipped user's accounts.  However, the
skipped user's requests can still become "replied": the reply-matching
lookup is not scoped by user (see the counterexample). -/
theorem claim_C10 :
    (∀ users mailboxOf st,
      imap_poller_pass users mailboxOf st =
        imap_poller_pass (users.filter (fun u => truthyKey u.gemini_api_key))
          mailboxOf st) ∧
    (∀ acct st msgs row, row ∈ (imap_poller_messages acct st msgs).inbox →
      row ∈ st.inbox ∨ row.account_id = acct) := by
  constructor
  · intro users mailboxOf st
    induction users generalizing st with
    | nil => rfl
    | cons u rest ih =>
      by_cases hk : truthyKey u.gemini_api_key = true
      · have e1 : imap_poller_pass (u :: rest) mailboxOf st =
            imap_poller_pass rest mailboxOf
              ((mailboxOf u.id).foldl
                (fun s2 am => imap_poller_messages am.1 s2 am.2) st) := by
          simp [imap_poller_pass, hk]
        have e2 : (u :: rest).filter (fun u => truthyKey u.gemini_api_key) =
            u :: rest.filter (fun u => truthyKey u.gemini_api_key) := by
          simp [List.filter_cons, hk]
        have e3 : imap_poller_pass
            (u :: rest.filter (fun u => truthyKey u.gemini_api_key)) mailboxOf st =
            imap_poller_pass (rest.filter (fun u => truthyKey u.gemini_api_key))
              mailboxOf
              ((mailboxOf u.id).foldl
                (fun s2 am => imap_poller_messages am.1 s2 am.2) st) := by
          simp [imap_poller_pass, hk]
        rw [e1, e2, e3]
        exact ih _
      · have e1 : imap_poller_pass (u :: rest) mailboxOf st =
            imap_poller_pass rest mailboxOf st := by
          simp [imap_poller_pass, hk]
        have e2 : (u :: rest).filter (fun u => truthyKey u.gemini_api_key) =
            rest.filter (fun u => truthyKey u.gemini_api_key) := by
          simp [List.filter_cons, hk]
        rw [e1, e2]
        exact ih st
  · intro acct st msgs row h
    exact imap_poller_messages_account h

def c10UserA : UserRow := { id := 1, gemini_api_key := some "k" }

/-- A user whose stored key is NULL: the poller skips this user. -/
def c10UserB : UserRow := { id := 2, gemini_api_key := none }

/-- A request belonging to user B (account 20), already dispatched with
correlation identifier <x@b.test>. -/
def c10TaskB : Task :=
  { id := 7, account_id := 20, receiver := "r@x.test", subject := "S",
    body := "B", send_at := 0, status := Status.sent, attempts := 1,
    last_error := none, message_id := some "<x@b.test>",
    attachment_path := none }

/-- A reply correlating to user B's request, sitting in user A's polled
mailbox (account 10). -/
def c10Msg : MailMessage :=
  { message_id := some "<m@ext.test>", in_reply_to := some "<x@b.test>",
    from_addr := "ext@y.test", subject := "Re: S", date := 3, body := "hi",
    sentiment := "Neutral" }

def c10MailboxOf : Nat → List (Nat × List MailMessage) :=
  fun uid => if uid = 1 then [(10, [c10Msg])] else [(20, [])]

def c10State : EngineState := { tasks := [c10TaskB], inbox := [] }

/-- Counterexample to claim C10 as stated: user B has no Gemini key, owns
account 20 and task 7, and B's mailbox yields nothing — yet after a pass in
which user A's mailbox contains a reply whose In-Reply-To equals B's stored
correlation identifier, B's request has transitioned to "replied", because
the lookup at src/main.py line 251 searches all tasks, not just the polling
user's. -/
theorem claim_C10_counterexample :
    truthyKey c10UserB.gemini_api_key = false ∧
    c10TaskB.account_id = 20 ∧
    c10MailboxOf 2 = [(20, [])] ∧
    (getTask (imap_poller_pass [c10UserA, c10UserB] c10MailboxOf c10State).tasks
        7).map Task.status = some Status.replied := by
  refine ⟨rfl, rfl, rfl, ?_⟩
  rfl

def c10Row : InboxRow :=
  { account_id := 10, from_addr := "ext@y.test", subject := "Re: S", date := 3,
    body := "hi", message_id := some "<m@ext.test>",
    in_reply_to := some "<x@b.test>", task_id := 7, sentiment := "Neutral" }

theorem claim_C10_witness :
    imap_poller_pass [c10UserB] c10MailboxOf c10State =
      imap_poller_pass
        ([c10UserB].filter (fun u => truthyKey u.gemini_api_key))
        c10MailboxOf c10State ∧
    (c10Row ∈ c10State.inbox ∨ c10Row.account_id = 10) := by
  constructor
  · exact claim_C10.1 [c10UserB] c10MailboxOf c10State
  · exact claim_C10.2 10 c10State [c10Msg] c10Row (by decide)

end EmailScheduler
